import Mathlib

/-!
Verification development for the melchiorpro article generator
(streamlit_app.py).  The file shallowly embeds the data model and the
operations of the four-stage generation pipeline: topic proposal, optional
web research, outline synthesis, and section-by-section drafting with the
bibliography assembly, together with the settings persistence layer.

Conventions of the embedding:
* Python str values are modelled as List Char (Unicode code points);
  the inputs of interest contain no surrogate code points, which Lean's
  Char cannot represent.
* The external text-generation service is an opaque collaborator; each
  stage takes the outcome of its single service call as an explicit
  argument (either the raw response body, or a success/exception sum).
* Python exceptions caught by a try/except block are modelled by Option
  results or by an explicit exception constructor for the service call.
* The in-memory research cache (a dict keyed by topic id) is modelled as
  an association list threaded through the research stage.
-/

namespace Melchior

/-- Whitespace characters recognised by Python str.split() with no
arguments and by the regex class backslash-s, restricted to the ASCII
range (space, tab, newline, carriage return, vertical tab, form feed).
All texts manipulated by the claims are within this range. -/
def isPySpace (c : Char) : Bool :=
  c = ' ' || c = '\t' || c = '\n' || c = '\r' || c = '\x0b' || c = '\x0c'

def countWordsAux : Bool → List Char → Nat
  | _, [] => 0
  | inWord, c :: cs =>
    if isPySpace c then countWordsAux false cs
    else (if inWord then 0 else 1) + countWordsAux true cs

/-- len(text.split()): number of maximal runs of non-whitespace characters
(streamlit_app.py line 494). -/
def countWords (l : List Char) : Nat := countWordsAux false l

/-- Split a character list at the first '>' : returns the characters
strictly before it and those strictly after it, or none when no '>'
occurs. -/
def splitAtGt : List Char → Option (List Char × List Char)
  | [] => none
  | c :: cs =>
    if c = '>' then some ([], cs)
    else
      match splitAtGt cs with
      | some (b, a) => some (c :: b, a)
      | none => none

def stripTagsAux : Nat → List Char → List Char
  | 0, l => l
  | _ + 1, [] => []
  | fuel + 1, c :: cs =>
    if c = '<' then
      match splitAtGt cs with
      | some ([], _) => c :: stripTagsAux fuel cs
      | some (_ :: _, a) => stripTagsAux fuel a
      | none => c :: stripTagsAux fuel cs
    else c :: stripTagsAux fuel cs

/-- re.sub removing every markup tag (the pattern "<", one or more
characters other than ">", then ">"), as used to compute the word count
of a generated section (line 493).  A match runs from a '<' to the first
'>' after it, provided at least one character stands between; unmatched
text is kept.  The fuel equals the input length, which bounds the number
of scanning steps since each step consumes at least one character. -/
def stripTags (l : List Char) : List Char := stripTagsAux l.length l

def skipPySpace (l : List Char) : List Char := l.dropWhile isPySpace

/-- Non-greedy middle of the heading pattern: starting right after an
opening "<h3>", try the literal closing tag first (the non-greedy dot
consumes as little as possible), consume any non-newline character
otherwise, and fail on a newline or the end of input (the regex dot does
not match a newline).  On success the whitespace tail of the pattern is
consumed as well. -/
def matchH3Close : List Char → Option (List Char)
  | '<' :: '/' :: 'h' :: '3' :: '>' :: rest => some (skipPySpace rest)
  | [] => none
  | c :: cs => if c = '\n' then none else matchH3Close cs

/-- Try the re-emitted-heading pattern at the head of the input; returns
the remainder after the match. -/
def matchH3At : List Char → Option (List Char)
  | '<' :: 'h' :: '3' :: '>' :: rest => matchH3Close rest
  | _ => none

def removeH3Aux : Nat → List Char → List Char
  | 0, l => l
  | _ + 1, [] => []
  | fuel + 1, c :: cs =>
    match matchH3At (c :: cs) with
    | some rest => removeH3Aux fuel rest
    | none => c :: removeH3Aux fuel cs

/-- re.sub removing every heading duplicated by the model, i.e. the
pattern "<h3>", a non-greedy run of non-newline characters, "</h3>", and
trailing whitespace (line 504). -/
def removeH3 (l : List Char) : List Char := removeH3Aux l.length l

/-- Python substring containment, needle in hay, on code points. -/
def containsSub (needle : List Char) : List Char → Bool
  | [] => needle.isEmpty
  | c :: t => needle.isPrefixOf (c :: t) || containsSub needle t

/-- The four per-section length parameters computed by the drafter. -/
structure SectionTargets where
  real_target : Nat
  display_target : Nat
  ai_target : Nat
  min_acceptable : Nat
  deriving DecidableEq, Repr

/-- Lines 384-404: the drafter inspects the section_length setting string
and fixes the real target, the displayed target, the inflated AI-facing
target and the minimum acceptable word count.  The code computes
int(real_target * 1.25) with length_multiplier = 1.25; since 1.25 = 5/4
is exact in binary floating point and the products 281.25, 500.0 and
375.0 are all exact, the truncation equals real_target * 5 / 4 in
natural-number arithmetic. -/
def sectionTargets (section_length : List Char) : SectionTargets :=
  if containsSub ("krótka".data) section_length then
    { real_target := 225, display_target := 225,
      ai_target := 225 * 5 / 4, min_acceptable := 180 }
  else if containsSub ("długa".data) section_length then
    { real_target := 400, display_target := 400,
      ai_target := 400 * 5 / 4, min_acceptable := 320 }
  else
    { real_target := 300, display_target := 300,
      ai_target := 300 * 5 / 4, min_acceptable := 240 }

/-- The running state of the drafting loop (lines 407-408). -/
structure DraftState where
  full_article : List Char
  total_words : Nat
  deriving DecidableEq, Repr

/-- What one iteration of the drafting loop produces: the new running
state, the word count computed for the generated section, and whether the
success message (word count at least the minimum acceptable) rather than
the under-target warning was shown (lines 497-500). -/
structure SectionOutcome where
  state : DraftState
  section_word_count : Nat
  passedMin : Bool
  deriving DecidableEq, Repr

/-- Lines 490-508, the per-section tail of the drafting loop: the word
count of the raw generated content is computed by stripping markup tags
and splitting on whitespace; the count is compared against the minimum
acceptable value to pick the success or warning message; then the
heading re-emitted by the model is removed and the canonical heading plus
the cleaned body are appended to the article unconditionally, while the
word count accumulates. -/
def draftStep (t : SectionTargets) (sectionTitle : List Char)
    (st : DraftState) (section_content : List Char) : SectionOutcome :=
  let clean_text := stripTags section_content
  let section_word_count := countWords clean_text
  let passed := decide (section_word_count ≥ t.min_acceptable)
  let content2 := removeH3 section_content
  let full' := st.full_article ++ ("<h3>".data) ++ sectionTitle ++
    ("</h3>\n\n".data) ++ content2 ++ ("\n\n".data)
  { state := { full_article := full', total_words := st.total_words + section_word_count },
    section_word_count := section_word_count,
    passedMin := passed }

/-- Line 422: the continuity context passed to the model is
full_article[-4000:] when the accumulated article exceeds 4000
characters, and the whole article otherwise. -/
def previous_context (full_article : List Char) : List Char :=
  if full_article.length > 4000 then
    full_article.drop (full_article.length - 4000)
  else full_article

/-- Characters admitted by the URL pattern body: anything except
whitespace, a closing parenthesis, a double quote or a single quote. -/
def isUrlChar (c : Char) : Bool :=
  !(isPySpace c || c = ')' || c = '\"' || c = '\'')

/-- Try the literal scheme alternatives of the URL pattern at the head of
the input, longer alternative first, exactly as the regex backtracking
does. -/
def dropScheme : List Char → Option (List Char × List Char)
  | 'h' :: 't' :: 't' :: 'p' :: 's' :: ':' :: '/' :: '/' :: r =>
    some ("https://".data, r)
  | 'h' :: 't' :: 't' :: 'p' :: ':' :: '/' :: '/' :: r =>
    some ("http://".data, r)
  | _ => none

/-- Try the whole URL pattern at the head of the input; the character
class after the scheme must match at least one character. -/
def matchUrlAt (l : List Char) : Option (List Char × List Char) :=
  match dropScheme l with
  | none => none
  | some (scheme, rest) =>
    match rest.takeWhile isUrlChar with
    | [] => none
    | body => some (scheme ++ body, rest.dropWhile isUrlChar)

def findUrlsAux : Nat → List Char → List (List Char)
  | 0, _ => []
  | _ + 1, [] => []
  | fuel + 1, c :: cs =>
    match matchUrlAt (c :: cs) with
    | some (url, rest) => url :: findUrlsAux fuel rest
    | none => findUrlsAux fuel cs

/-- re.findall over the URL pattern (line 210-211): non-overlapping
leftmost matches, scanning left to right. -/
def findUrls (l : List Char) : List (List Char) := findUrlsAux l.length l

def dedupKeepFirstAux (seen : List (List Char)) :
    List (List Char) → List (List Char)
  | [] => []
  | x :: xs =>
    if x ∈ seen then dedupKeepFirstAux seen xs
    else x :: dedupKeepFirstAux (x :: seen) xs

/-- list(set(...)) of line 211 removes duplicates; CPython's set
iteration order is unspecified, so the embedding fixes the
first-occurrence order.  No claim depends on the order of the citation
list, only on its members. -/
def dedupKeepFirst (l : List (List Char)) : List (List Char) :=
  dedupKeepFirstAux [] l

/-- One cached research record: the response text and the extracted
citations (lines 226-229). -/
structure ResearchEntry where
  content : List Char
  citations : List (List Char)
  deriving DecidableEq, Repr

/-- The in-memory research cache, a dict from topic id to research
record, modelled as an association list without duplicate keys. -/
def ResearchCache := List (Nat × ResearchEntry)

/-- Python dict lookup on the cache. -/
def lookupCache : ResearchCache → Nat → Option ResearchEntry
  | [], _ => none
  | (k, v) :: t, key => if k = key then some v else lookupCache t key

/-- Python dict assignment on the cache: replace the entry of an existing
key, append a new key at the end. -/
def setCache : ResearchCache → Nat → ResearchEntry → ResearchCache
  | [], key, e => [(key, e)]
  | (k, v) :: t, key, e =>
    if k = key then (key, e) :: t else (k, v) :: setCache t key e

/-- Outcome of the single search-augmented service call of the research
stage, as consumed by the code: either the response content together
with the URLs of those citation annotations that carry a url_citation
attribute (lines 196-206), or an exception.  The exception constructor
covers any exception raised inside the try block, whether by the service
call itself or while processing the response; the cache write (line 226)
is the last effect of the try block, so an exception always precedes
it. -/
inductive SvcOutcome where
  | ok (content : List Char) (annotationUrls : List (List Char))
  | exn
  deriving DecidableEq

/-- What one invocation of perform_web_research produces: the returned
research text, the cache afterwards, how many service calls were issued,
and whether the error message (line 234) and the diagnostic-guidance
warning (line 235) were shown. -/
structure ResearchOutcome where
  content : List Char
  cache : ResearchCache
  calls : Nat
  errorShown : Bool
  warningShown : Bool

/-- Lines 154-247: the research stage.  When the do_research setting is
off it returns the empty string at once, issuing no call and leaving the
cache alone.  Otherwise one service call is made; on success the
citations are taken from the annotations when any are present and
otherwise extracted from the text by the URL pattern and deduplicated,
the result is cached under the topic id, and the content is returned.
On an exception the error and the diagnostic warning are shown, nothing
is cached, and the empty string is returned.  The domain-count summary
of lines 213-223 only feeds a display message (its inner try swallows
its own errors with a bare except/pass) and is not modelled. -/
def perform_web_research (do_research : Bool) (topicId : Nat)
    (svc : SvcOutcome) (cache : ResearchCache) : ResearchOutcome :=
  if !do_research then
    { content := [], cache := cache, calls := 0,
      errorShown := false, warningShown := false }
  else
    match svc with
    | SvcOutcome.exn =>
      { content := [], cache := cache, calls := 1,
        errorShown := true, warningShown := true }
    | SvcOutcome.ok content annotationUrls =>
      let citations :=
        if annotationUrls.isEmpty then dedupKeepFirst (findUrls content)
        else annotationUrls
      { content := content,
        cache := setCache cache topicId
          { content := content, citations := citations },
        calls := 1, errorShown := false, warningShown := false }

/-- Line 525: citation.split("?")[0] if "?" in citation else citation,
i.e. everything from the first question mark onward is removed. -/
def clean_url (citation : List Char) : List Char :=
  citation.takeWhile (fun c => c ≠ '?')

/-- Lines 522-529: one bibliography item.  A citation that starts with
"http" is rendered as a hyperlink to its query-stripped URL, anything
else as plain text. -/
def renderCitation (citation : List Char) : List Char :=
  if ("http".data).isPrefixOf citation then
    let cleaned := clean_url citation
    ("    <li><a href=\"".data) ++ cleaned ++
      ("\" target=\"_blank\">".data) ++ cleaned ++ ("</a></li>\n".data)
  else ("    <li>".data) ++ citation ++ ("</li>\n".data)

def renderCitations : List (List Char) → List Char
  | [] => []
  | c :: cs => renderCitation c ++ renderCitations cs

/-- The citation list the bibliography phase starts from (lines
515-517): the citations cached for the topic, or the empty list when the
topic has no cache entry. -/
def citationsFor (cache : ResearchCache) (topicId : Nat) : List (List Char) :=
  match lookupCache cache topicId with
  | some e => e.citations
  | none => []

/-- Lines 514-531: after all sections, when the add_bibliography setting
is on and the citation list for the topic is non-empty, a numbered
bibliography block is appended to the article; otherwise the article is
returned unchanged. -/
def appendBibliography (add_bibliography : Bool) (cache : ResearchCache)
    (topicId : Nat) (full_article : List Char) : List Char :=
  let citations := citationsFor cache topicId
  if add_bibliography && !citations.isEmpty then
    full_article ++ ("\n<h3>Bibliografia</h3>\n<ol>\n".data) ++
      renderCitations citations ++ ("</ol>\n".data)
  else full_article

/- ===================== JSON values ======================

The settings persistence (save_settings / load_settings, lines 78-92)
serialises a Python dict with json.dump(..., ensure_ascii=False,
indent=2) and reads it back with json.load.  A JSON value is modelled by
the mutual inductive below.  Numbers carry their printed decimal form: a
sign, the integer digits, optional fraction digits and an optional
exponent; this covers Python int repr and Python float repr exactly (the
shortest-round-trip decimal both emit), and repr followed by a
correctly-rounded parse is an exact round trip for Python, so the
decimal form is a faithful stand-in for the numeric value.  Objects are
ordered association lists, mirroring insertion-ordered Python dicts;
well-formedness below requires distinct keys, as dict keys are. -/

mutual
inductive Json where
  | null : Json
  | bool : Bool → Json
  | num : Bool → List (Fin 10) → Option (List (Fin 10)) →
      Option (Bool × List (Fin 10)) → Json
  | nan : Json
  | infinity : Bool → Json
  | str : List Char → Json
  | arr : JsonList → Json
  | obj : JsonObj → Json
  deriving DecidableEq
inductive JsonList where
  | nil : JsonList
  | cons : Json → JsonList → JsonList
  deriving DecidableEq
inductive JsonObj where
  | nil : JsonObj
  | cons : List Char → Json → JsonObj → JsonObj
  deriving DecidableEq
end

/-- The left and right curly bracket characters. -/
def lbrace : Char := Char.ofNat 123

def rbrace : Char := Char.ofNat 125

/-- Integer digits as Python repr prints them: non-empty, and a leading
zero only for the single digit zero (this is also what the JSON number
grammar accepts). -/
def wfIntPart : List (Fin 10) → Bool
  | [] => false
  | d :: rest => if d.val = 0 then rest.isEmpty else true

def keyMem (k : List Char) : JsonObj → Bool
  | JsonObj.nil => false
  | JsonObj.cons k2 _ t => k = k2 || keyMem k t

mutual
/-- A JSON value that denotes a JSON-representable Python value as
json.dump serialises it: number components in printable form and
objects with distinct keys.  The NaN and Infinity float constants are
excluded: they are not JSON values (CPython reads and writes them only
through its allow_nan extension), and a record holding NaN does not
even equal itself in Python, so it cannot round-trip. -/
def wfJ : Json → Bool
  | Json.null => true
  | Json.bool _ => true
  | Json.num _ ip fp ex =>
    wfIntPart ip &&
    (match fp with | none => true | some f => !f.isEmpty) &&
    (match ex with | none => true | some (_, ds) => !ds.isEmpty)
  | Json.nan => false
  | Json.infinity _ => false
  | Json.str _ => true
  | Json.arr l => wfL l
  | Json.obj o => wfO o
def wfL : JsonList → Bool
  | JsonList.nil => true
  | JsonList.cons v t => wfJ v && wfL t
def wfO : JsonObj → Bool
  | JsonObj.nil => true
  | JsonObj.cons k v t => !keyMem k t && wfJ v && wfO t
end

def digitChar (d : Fin 10) : Char := Char.ofNat (48 + d.val)

def digitsChars (l : List (Fin 10)) : List Char := l.map digitChar

/-- Lowercase hexadecimal digit, as json.encoder emits in a
backslash-u escape. -/
def hexChar (n : Nat) : Char :=
  if n < 10 then Char.ofNat (48 + n) else Char.ofNat (87 + n)

/-- The string escaping of json.encoder with ensure_ascii=False: only
the double quote, the backslash and control characters below 0x20 are
escaped, the latter by their short names when they have one and by a
four-digit lowercase backslash-u escape otherwise. -/
def escapeChar (c : Char) : List Char :=
  if c = '\"' then ['\\', '\"']
  else if c = '\\' then ['\\', '\\']
  else if c = '\x08' then ['\\', 'b']
  else if c = '\x0c' then ['\\', 'f']
  else if c = '\n' then ['\\', 'n']
  else if c = '\r' then ['\\', 'r']
  else if c = '\t' then ['\\', 't']
  else if c.toNat < 32 then
    ['\\', 'u', '0', '0', hexChar (c.toNat / 16), hexChar (c.toNat % 16)]
  else [c]

def escChars : List Char → List Char
  | [] => []
  | c :: cs => escapeChar c ++ escChars cs

/-- A serialised JSON string: quote, escaped content, quote. -/
def serStr (s : List Char) : List Char := '\"' :: (escChars s ++ ['\"'])

/-- The serialised fraction part of a number: nothing, or a dot and the
fraction digits. -/
def fracSer : Option (List (Fin 10)) → List Char
  | none => []
  | some f => '.' :: digitsChars f

/-- The serialised exponent part of a number: nothing, or the letter e,
an explicit sign and the exponent digits (as Python float repr prints
it). -/
def expSer : Option (Bool × List (Fin 10)) → List Char
  | none => []
  | some (eneg, ds) => 'e' :: (if eneg then '-' else '+') :: digitsChars ds

/-- A serialised JSON number from its components. -/
def serNum (neg : Bool) (ip : List (Fin 10)) (fp : Option (List (Fin 10)))
    (ex : Option (Bool × List (Fin 10))) : List Char :=
  (if neg then ['-'] else []) ++ digitsChars ip ++ fracSer fp ++ expSer ex

/-- The indentation prefix at nesting depth n for indent=2. -/
def indentChars (n : Nat) : List Char := List.replicate (2 * n) ' '

mutual
/-- json.dump with ensure_ascii=False and indent=2, at a given nesting
level: empty containers print as a bracket pair; a non-empty container
puts every item on its own line indented one level deeper, separates
items with a comma, separates a key from its value with a colon and a
space, and closes the bracket on its own line at the outer level. -/
def serJson : Json → Nat → List Char
  | Json.null, _ => "null".data
  | Json.bool true, _ => "true".data
  | Json.bool false, _ => "false".data
  | Json.num neg ip fp ex, _ => serNum neg ip fp ex
  | Json.nan, _ => "NaN".data
  | Json.infinity false, _ => "Infinity".data
  | Json.infinity true, _ => "-Infinity".data
  | Json.str s, _ => serStr s
  | Json.arr JsonList.nil, _ => ['[', ']']
  | Json.arr (JsonList.cons v t), lvl =>
    '[' :: (serListItems (JsonList.cons v t) (lvl + 1) ++
      '\n' :: (indentChars lvl ++ [']']))
  | Json.obj JsonObj.nil, _ => [lbrace, rbrace]
  | Json.obj (JsonObj.cons k v t), lvl =>
    lbrace :: (serObjItems (JsonObj.cons k v t) (lvl + 1) ++
      '\n' :: (indentChars lvl ++ [rbrace]))
def serListItems : JsonList → Nat → List Char
  | JsonList.nil, _ => []
  | JsonList.cons v JsonList.nil, lvl =>
    '\n' :: (indentChars lvl ++ serJson v lvl)
  | JsonList.cons v (JsonList.cons w t), lvl =>
    '\n' :: (indentChars lvl ++ serJson v lvl ++
      ',' :: serListItems (JsonList.cons w t) lvl)
def serObjItems : JsonObj → Nat → List Char
  | JsonObj.nil, _ => []
  | JsonObj.cons k v JsonObj.nil, lvl =>
    '\n' :: (indentChars lvl ++ (serStr k ++ ':' :: ' ' :: serJson v lvl))
  | JsonObj.cons k v (JsonObj.cons k2 v2 t), lvl =>
    '\n' :: (indentChars lvl ++ (serStr k ++ ':' :: ' ' :: serJson v lvl ++
      ',' :: serObjItems (JsonObj.cons k2 v2 t) lvl))
end

/- ===================== JSON parsing ======================

json.load is modelled by a recursive-descent parser over the character
list.  Fidelity notes: the scanner skips the JSON whitespace characters
exactly where CPython's decoder does; strings are strict (raw control
characters below 0x20 are rejected, backslash-u escapes need four hex
digits), and a backslash-u escape decoding to a lone surrogate is
accepted as CPython accepts it, the one code point rendered as U+FFFD
since Lean's Char has no surrogate code points (see decodeUEscape); the
NaN, Infinity and -Infinity constants parse to their own constructors
as CPython's parse_constant extension does; a duplicate object key
yields both entries in the association list, where CPython's dict would
keep the last (the serialiser never emits duplicate keys), and Python
dict subscripting and lookup are modelled with last-wins semantics
below to match.  The host interpreter's recursion limit, which makes
CPython raise on inputs nested thousands of levels deep, is a resource
bound outside the model. -/

def isJsonWs (c : Char) : Bool := c = ' ' || c = '\t' || c = '\n' || c = '\r'

def skipWs (l : List Char) : List Char := l.dropWhile isJsonWs

def hexVal (c : Char) : Option Nat :=
  if 48 ≤ c.toNat ∧ c.toNat ≤ 57 then some (c.toNat - 48)
  else if 97 ≤ c.toNat ∧ c.toNat ≤ 102 then some (c.toNat - 87)
  else if 65 ≤ c.toNat ∧ c.toNat ≤ 70 then some (c.toNat - 55)
  else none

/-- Decode a single-character escape; none for an invalid escape, on
which CPython raises. -/
def escDecode (c : Char) : Option Char :=
  if c = '\"' then some '\"'
  else if c = '\\' then some '\\'
  else if c = '/' then some '/'
  else if c = 'b' then some '\x08'
  else if c = 'f' then some '\x0c'
  else if c = 'n' then some '\n'
  else if c = 'r' then some '\r'
  else if c = 't' then some '\t'
  else none

/-- Continue after a backslash-u escape whose four hex digits give n:
the decoded character and the input position to resume at.  A
non-surrogate value stands for itself.  CPython admits lone surrogates
in decoded strings: a high surrogate immediately followed by a
backslash-u escape of a low surrogate forms the combined code point
(consuming both escapes); any other surrogate is kept alone, consuming
only its own escape, so a following escape is decoded on its own in the
next step.  Lean's Char cannot carry a surrogate code point, so the
model represents a lone surrogate by the replacement character U+FFFD;
parse success and failure coincide with CPython's everywhere (a
following malformed backslash-u escape still fails in the next step,
exactly where CPython raises), only the identity of that one decoded
code point differs, and the serialiser never emits a surrogate
escape. -/
def decodeUEscape (n : Nat) (rest3 : List Char) : Char × List Char :=
  if n < 55296 ∨ 57343 < n then (Char.ofNat n, rest3)
  else if n ≤ 56319 then
    match rest3 with
    | '\\' :: 'u' :: g1 :: g2 :: g3 :: g4 :: rest4 =>
      match hexVal g1, hexVal g2, hexVal g3, hexVal g4 with
      | some a2, some b2, some c3, some d2 =>
        let m := a2 * 4096 + b2 * 256 + c3 * 16 + d2
        if 56320 ≤ m ∧ m ≤ 57343 then
          (Char.ofNat (65536 + (n - 55296) * 1024 + (m - 56320)), rest4)
        else (Char.ofNat 65533, rest3)
      | _, _, _, _ => (Char.ofNat 65533, rest3)
    | _ => (Char.ofNat 65533, rest3)
  else (Char.ofNat 65533, rest3)

/-- Parse the body of a JSON string (the opening quote already
consumed): content characters and the remainder after the closing
quote.  The fuel bounds the number of content characters; every step
consumes at least one input character, so any fuel beyond the input
length is enough. -/
def parseStrAux : Nat → List Char → Option (List Char × List Char)
  | 0, _ => none
  | _ + 1, [] => none
  | fuel + 1, c :: rest =>
    if c = '\"' then some ([], rest)
    else if c = '\\' then
      match rest with
      | [] => none
      | e :: rest2 =>
        if e = 'u' then
          match rest2 with
          | h1 :: h2 :: h3 :: h4 :: rest3 =>
            match hexVal h1, hexVal h2, hexVal h3, hexVal h4 with
            | some a, some b, some c2, some d =>
              let p := decodeUEscape (a * 4096 + b * 256 + c2 * 16 + d) rest3
              (parseStrAux fuel p.2).map (fun q => (p.1 :: q.1, q.2))
            | _, _, _, _ => none
          | _ => none
        else
          match escDecode e with
          | some c2 => (parseStrAux fuel rest2).map (fun p => (c2 :: p.1, p.2))
          | none => none
    else if c.toNat < 32 then none
    else (parseStrAux fuel rest).map (fun p => (c :: p.1, p.2))

/-- Parse a JSON string body with enough fuel for the whole input. -/
def parseStr (l : List Char) : Option (List Char × List Char) :=
  parseStrAux l.length l

def digitVal (c : Char) : Option (Fin 10) :=
  if h : 48 ≤ c.toNat ∧ c.toNat ≤ 57 then
    some ⟨c.toNat - 48, by omega⟩
  else none

def takeDigits : List Char → List (Fin 10) × List Char
  | [] => ([], [])
  | c :: cs =>
    match digitVal c with
    | some d => let p := takeDigits cs; (d :: p.1, p.2)
    | none => ([], c :: cs)

/-- The integer-digits group of the number regex, 0 or a nonzero digit
followed by any digits: a leading zero ends the group at once. -/
def parseIntPart : List Char → Option (List (Fin 10) × List Char)
  | [] => none
  | c :: cs =>
    match digitVal c with
    | none => none
    | some d =>
      if d.val = 0 then some ([d], cs)
      else
        let p := takeDigits cs
        some (d :: p.1, p.2)

/-- The optional fraction group: a dot must be followed by at least one
digit to take part in the match, otherwise the group matches nothing. -/
def parseFrac : List Char → Option (List (Fin 10)) × List Char
  | [] => (none, [])
  | c :: cs =>
    if c = '.' then
      match takeDigits cs with
      | ([], _) => (none, c :: cs)
      | (ds, r) => (some ds, r)
    else (none, c :: cs)

/-- The optional exponent group: e or E, an optional sign, then at least
one digit, otherwise the group matches nothing. -/
def parseExp : List Char → Option (Bool × List (Fin 10)) × List Char
  | [] => (none, [])
  | c :: cs =>
    if c = 'e' || c = 'E' then
      match cs with
      | [] => (none, c :: cs)
      | s :: cs2 =>
        if s = '-' then
          match takeDigits cs2 with
          | ([], _) => (none, c :: cs)
          | (ds, r) => (some (true, ds), r)
        else if s = '+' then
          match takeDigits cs2 with
          | ([], _) => (none, c :: cs)
          | (ds, r) => (some (false, ds), r)
        else
          match takeDigits (s :: cs2) with
          | ([], _) => (none, c :: cs)
          | (ds, r) => (some (false, ds), r)
    else (none, c :: cs)

def parseNumCore (l : List Char) :
    Option ((List (Fin 10) × Option (List (Fin 10)) ×
      Option (Bool × List (Fin 10))) × List Char) :=
  match parseIntPart l with
  | none => none
  | some (ip, r1) =>
    let fr := parseFrac r1
    let exr := parseExp fr.2
    some ((ip, fr.1, exr.1), exr.2)

/-- The NaN, Infinity and -Infinity constants, which CPython's scanner
accepts (parse_constant) after the number match fails. -/
def parseConst : List Char → Option (Json × List Char)
  | 'N' :: 'a' :: 'N' :: r => some (Json.nan, r)
  | 'I' :: 'n' :: 'f' :: 'i' :: 'n' :: 'i' :: 't' :: 'y' :: r =>
    some (Json.infinity false, r)
  | '-' :: 'I' :: 'n' :: 'f' :: 'i' :: 'n' :: 'i' :: 't' :: 'y' :: r =>
    some (Json.infinity true, r)
  | _ => none

/-- The number alternative of the scanner: the regex of an optional
minus sign, integer digits, optional fraction and optional exponent. -/
def parseNum : List Char → Option (Json × List Char)
  | [] => none
  | c :: t =>
    if c = '-' then
      (parseNumCore t).map (fun p => (Json.num true p.1.1 p.1.2.1 p.1.2.2, p.2))
    else
      (parseNumCore (c :: t)).map (fun p =>
        (Json.num false p.1.1 p.1.2.1 p.1.2.2, p.2))

mutual
/-- One value, dispatched on the first non-whitespace character as
CPython's scanner does.  The fuel bounds the nesting recursion; every
nesting level of the input consumes at least one character, so any fuel
beyond the input length is enough. -/
def parseValue : Nat → List Char → Option (Json × List Char)
  | 0, _ => none
  | fuel + 1, l =>
    match skipWs l with
    | [] => none
    | c :: t =>
      if c = lbrace then
        match skipWs t with
        | c2 :: r =>
          if c2 = rbrace then some (Json.obj JsonObj.nil, r)
          else (parseMembers fuel (c2 :: r)).map (fun p => (Json.obj p.1, p.2))
        | [] => none
      else if c = '[' then
        match skipWs t with
        | [] => none
        | c2 :: r =>
          if c2 = ']' then some (Json.arr JsonList.nil, r)
          else (parseItems fuel (c2 :: r)).map (fun p => (Json.arr p.1, p.2))
      else if c = '\"' then
        (parseStr t).map (fun p => (Json.str p.1, p.2))
      else if c = 't' then
        match t with
        | 'r' :: 'u' :: 'e' :: r => some (Json.bool true, r)
        | _ => none
      else if c = 'f' then
        match t with
        | 'a' :: 'l' :: 's' :: 'e' :: r => some (Json.bool false, r)
        | _ => none
      else if c = 'n' then
        match t with
        | 'u' :: 'l' :: 'l' :: r => some (Json.null, r)
        | _ => none
      else
        match parseNum (c :: t) with
        | some r => some r
        | none => parseConst (c :: t)
/-- The non-empty tail of an array: a value, then a comma and more
items or the closing bracket. -/
def parseItems : Nat → List Char → Option (JsonList × List Char)
  | 0, _ => none
  | fuel + 1, l =>
    match parseValue fuel l with
    | none => none
    | some (v, r) =>
      match skipWs r with
      | [] => none
      | c :: r2 =>
        if c = ',' then
          (parseItems fuel r2).map (fun p => (JsonList.cons v p.1, p.2))
        else if c = ']' then some (JsonList.cons v JsonList.nil, r2)
        else none
/-- The non-empty tail of an object: a quoted key, a colon, a value,
then a comma and more members or the closing brace. -/
def parseMembers : Nat → List Char → Option (JsonObj × List Char)
  | 0, _ => none
  | fuel + 1, l =>
    match skipWs l with
    | [] => none
    | c0 :: t =>
      if c0 = '\"' then
        match parseStr t with
        | none => none
        | some (k, r1) =>
          match skipWs r1 with
          | [] => none
          | c1 :: r2 =>
            if c1 = ':' then
              match parseValue fuel r2 with
              | none => none
              | some (v, r3) =>
                match skipWs r3 with
                | [] => none
                | c5 :: r4 =>
                  if c5 = ',' then
                    (parseMembers fuel r4).map (fun p =>
                      (JsonObj.cons k v p.1, p.2))
                  else if c5 = rbrace then
                    some (JsonObj.cons k v JsonObj.nil, r4)
                  else none
            else none
      else none
end

/-- json.loads / json.load: skip leading whitespace, scan one value,
then require only whitespace to remain (CPython raises Extra data
otherwise). -/
def loads (s : List Char) : Option Json :=
  match parseValue (s.length + 1) s with
  | some (v, rest) => if (skipWs rest).isEmpty then some v else none
  | none => none

/-- json.dumps of the settings writer: top level at nesting level 0. -/
def dumps (v : Json) : List Char := serJson v 0

/-- An integer literal from its digits. -/
def jsInt (ds : List (Fin 10)) : Json := Json.num false ds none none

/-- A non-negative float literal from its integer and fraction digits. -/
def jsFloat (ip f : List (Fin 10)) : Json := Json.num false ip (some f) none

/-- Lines 13-35: the built-in default settings record. -/
def default_settings : Json :=
  Json.obj (
    JsonObj.cons ("temperature".data) (jsFloat [0] [7]) (
    JsonObj.cons ("top_p".data) (jsFloat [1] [0]) (
    JsonObj.cons ("max_tokens".data) (jsInt [2, 0, 0, 0]) (
    JsonObj.cons ("do_research".data) (Json.bool false) (
    JsonObj.cons ("search_context_size".data) (Json.str ("medium".data)) (
    JsonObj.cons ("add_bibliography".data) (Json.bool true) (
    JsonObj.cons ("search_intent".data) (Json.str ("informacyjna".data)) (
    JsonObj.cons ("complexity_level".data)
      (Json.str ("średniozaawansowany".data)) (
    JsonObj.cons ("engagement_elements".data) (Json.obj (
      JsonObj.cons ("rhetorical_questions".data) (Json.bool true) (
      JsonObj.cons ("statistics_quotes".data) (Json.bool true) (
      JsonObj.cons ("examples_cases".data) (Json.bool true) (
      JsonObj.cons ("stories".data) (Json.bool false) JsonObj.nil))))) (
    JsonObj.cons ("content_type".data) (Json.str ("przewodnik".data)) (
    JsonObj.cons ("readability_index".data) (Json.str ("standardowy".data)) (
    JsonObj.cons ("num_topics".data) (jsInt [5]) (
    JsonObj.cons ("num_sections".data) (jsInt [7]) (
    JsonObj.cons ("section_length".data)
      (Json.str ("średnia (250-350 słów)".data)) JsonObj.nil))))))))))))))

/-- Lines 78-81: save_settings writes the serialised record to the
settings file.  The file system is modelled as the optional content of
that one file; whatever was there before is overwritten. -/
def save_settings (settings : Json) (_fs : Option (List Char)) :
    Option (List Char) :=
  some (dumps settings)

/-- Lines 83-92: load_settings returns the parsed file content when the
file exists and parses, the defaults when the file is missing, and the
defaults plus a warning when reading or parsing fails (the except
branch).  The Bool records whether the warning was shown. -/
def load_settings (fs : Option (List Char)) : Json × Bool :=
  match fs with
  | none => (default_settings, false)
  | some content =>
    match loads content with
    | some v => (v, false)
    | none => (default_settings, true)

/-- Python dict lookup by key on a parsed object, last occurrence wins
as in a dict built by the decoder. -/
def lookupObj : JsonObj → List Char → Option Json
  | JsonObj.nil, _ => none
  | JsonObj.cons k v t, key =>
    match lookupObj t key with
    | some v2 => some v2
    | none => if k = key then some v else none

/-- Python subscripting value[key]: a KeyError on a missing key and a
TypeError on a non-dict value both land in the surrounding except
branch, so both are none here. -/
def getObjVal (j : Json) (key : List Char) : Option Json :=
  match j with
  | Json.obj o => lookupObj o key
  | _ => none

/-- What one invocation of generate_topics produces: the value Python
returns (the parsed "topics" entry, whatever its shape, or the empty
list from the except branch), how many service calls were issued, and
whether the error message of line 151 was shown. -/
structure TopicsOutcome where
  topics : Json
  calls : Nat
  errorShown : Bool
  deriving DecidableEq

/-- The value the topic proposer extracts from a response body:
json.loads(body)["topics"] of line 149, none when that expression
raises (an unparseable body, a body that is not an object, or an object
without the key: the structural-failure condition of the stage). -/
def parsedTopicsVal (body : List Char) : Option Json :=
  (loads body).bind (fun j => getObjVal j ("topics".data))

/-- Lines 99-152: the topic proposer issues exactly one service call and
then evaluates json.loads(response_content)["topics"] inside a
try/except: any failure (unparseable body, body not an object, missing
key) is reported and the empty list is returned; there is no retry. -/
def generate_topics (body : List Char) : TopicsOutcome :=
  match parsedTopicsVal body with
  | some t => { topics := t, calls := 1, errorShown := false }
  | none => { topics := Json.arr JsonList.nil, calls := 1, errorShown := true }

def jsonListLength : JsonList → Nat
  | JsonList.nil => 0
  | JsonList.cons _ t => jsonListLength t + 1

def jsonObjLength : JsonObj → Nat
  | JsonObj.nil => 0
  | JsonObj.cons _ _ t => jsonObjLength t + 1

/-- outline.get("sections", []) of lines 365 and 369: the parsed value
must be a dict (on anything else the attribute access raises an
AttributeError into the except branch); a missing key defaults to the
empty list. -/
def getSectionsVal (j : Json) : Option Json :=
  match j with
  | Json.obj o => some ((lookupObj o ("sections".data)).getD (Json.arr JsonList.nil))
  | _ => none

/-- Python len() on a decoded JSON value: strings, lists and dicts are
sized; numbers, booleans and None raise a TypeError (into the except
branch). -/
def pyLen : Json → Option Nat
  | Json.str s => some s.length
  | Json.arr l => some (jsonListLength l)
  | Json.obj o => some (jsonObjLength o)
  | _ => none

def charsAsStrs : List Char → JsonList
  | [] => JsonList.nil
  | c :: cs => JsonList.cons (Json.str [c]) (charsAsStrs cs)

def objKeysAsStrs : JsonObj → JsonList
  | JsonObj.nil => JsonList.nil
  | JsonObj.cons k _ t => JsonList.cons (Json.str k) (objKeysAsStrs t)

/-- Python iteration over a decoded JSON value, as the comprehension of
line 369 performs it: a list yields its elements, a string its
one-character strings, a dict its keys; numbers, booleans and None
raise a TypeError (into the except branch).  Sized and iterable
coincide on decoded JSON values. -/
def pyIter : Json → Option JsonList
  | Json.str s => some (charsAsStrs s)
  | Json.arr l => some l
  | Json.obj o => some (objKeysAsStrs o)
  | _ => none

/-- len(section.get("prompt", "")) for one element of the sections
value: the element must be a dict (a plain .get on anything else raises
an AttributeError), the prompt entry defaults to the empty string, and
its length is Python len() with its TypeError cases. -/
def promptLen (sec : Json) : Option Nat :=
  match sec with
  | Json.obj o => pyLen ((lookupObj o ("prompt".data)).getD (Json.str []))
  | _ => none

/-- The number of sections whose prompt is shorter than 200 characters
(line 369), none when visiting some section raises. -/
def countShortPrompts : JsonList → Option Nat
  | JsonList.nil => some 0
  | JsonList.cons s t =>
    match promptLen s, countShortPrompts t with
    | some n, some m => some ((if n < 200 then 1 else 0) + m)
    | _, _ => none

/-- The post-parse validation of the outline try block (lines 364-371)
on a parsed body: whether the section-count warning was shown before
any exception, and the number of short prompts when the block runs to
completion (none when it raises).  The .get of line 365 raises before
the count warning on a non-dict outline; len() of a non-sized sections
value raises before the warning as well; the comprehension of line 369
raises after the warning when the sections value cannot be iterated or
some visited element has the wrong shape. -/
def outlineShapeResult (j : Json) (num_sections : Nat) : Bool × Option Nat :=
  match getSectionsVal j with
  | none => (false, none)
  | some sval =>
    match pyLen sval with
    | none => (false, none)
    | some len1 =>
      let warned1 := decide (len1 ≠ num_sections)
      match pyIter sval with
      | none => (warned1, none)
      | some elems =>
        match countShortPrompts elems with
        | none => (warned1, none)
        | some k => (warned1, some k)

/-- What one invocation of generate_article_outline produces: the
outline Python returns (none from the except branch), the number of
service calls issued, whether the error of line 375 was shown, and
whether each of the two soft validation warnings (wrong section count,
line 366; short prompts, line 371) was shown. -/
structure OutlineOutcome where
  outline : Option Json
  calls : Nat
  errorShown : Bool
  warnedSectionCount : Bool
  warnedShortPrompts : Bool
  deriving DecidableEq

/-- Lines 249-376: the outline synthesizer issues exactly one service
call, parses the body inside a try/except, warns (without retrying) when
the section count differs from the requested one or when some prompts
are short, and returns the outline; any exception is reported and none
is returned.  The section-count warning precedes the prompt check, so it
can have been shown even when the prompt check raises. -/
def generate_article_outline (body : List Char) (num_sections : Nat) :
    OutlineOutcome :=
  match loads body with
  | none =>
    { outline := none, calls := 1, errorShown := true,
      warnedSectionCount := false, warnedShortPrompts := false }
  | some j =>
    match outlineShapeResult j num_sections with
    | (warned1, none) =>
      { outline := none, calls := 1, errorShown := true,
        warnedSectionCount := warned1, warnedShortPrompts := false }
    | (warned1, some k) =>
      { outline := some j, calls := 1, errorShown := false,
        warnedSectionCount := warned1, warnedShortPrompts := decide (0 < k) }

/-- The structural-success condition of the outline synthesizer: the
body parses and the whole try block of lines 361-373 runs without an
exception. -/
def outlineShapeOk (body : List Char) (num_sections : Nat) : Bool :=
  match loads body with
  | none => false
  | some j => ((outlineShapeResult j num_sections).2).isSome

/- ============ auxiliary measures and test data ============ -/

def isDigitCh (c : Char) : Bool := 48 ≤ c.toNat && c.toNat ≤ 57

/-- The first character of this remainder cannot extend a number match:
not a digit, not a dot, not an exponent letter.  This holds wherever the
serialiser places a number (the next character is a comma, a newline or
the end of input). -/
def numBoundary : List Char → Bool
  | [] => true
  | c :: _ => !(isDigitCh c || c = '.' || c = 'e' || c = 'E')

/-- The first character of this remainder is not a digit, so a digit
run ends here. -/
def headNotDigit : List Char → Bool
  | [] => true
  | c :: _ => !isDigitCh c

mutual
/-- Nesting fuel sufficient for parseValue to consume this value. -/
def fuelJ : Json → Nat
  | Json.null => 1
  | Json.bool _ => 1
  | Json.num _ _ _ _ => 1
  | Json.nan => 1
  | Json.infinity _ => 1
  | Json.str _ => 1
  | Json.arr JsonList.nil => 1
  | Json.arr (JsonList.cons v t) => 1 + fuelL (JsonList.cons v t)
  | Json.obj JsonObj.nil => 1
  | Json.obj (JsonObj.cons k v t) => 1 + fuelO (JsonObj.cons k v t)
def fuelL : JsonList → Nat
  | JsonList.nil => 1
  | JsonList.cons v t => 1 + max (fuelJ v) (fuelL t)
def fuelO : JsonObj → Nat
  | JsonObj.nil => 1
  | JsonObj.cons _ v t => 1 + max (fuelJ v) (fuelO t)
end

/-- The serialised items of an array after the first one: nothing, or a
comma and the remaining lines. -/
def itemsSer : JsonList → Nat → List Char
  | JsonList.nil, _ => []
  | JsonList.cons v t, lvl => ',' :: serListItems (JsonList.cons v t) lvl

/-- The serialised members of an object after the first one. -/
def membersSer : JsonObj → Nat → List Char
  | JsonObj.nil, _ => []
  | JsonObj.cons k v t, lvl => ',' :: serObjItems (JsonObj.cons k v t) lvl

/-- A section body of n one-letter words, concrete test data. -/
def nWords (n : Nat) : List Char := (List.replicate n ('w' :: [' '])).flatten

/- ===================== claim theorems (drafter) ====================== -/

/-- C1: for every section_length setting the drafter's minimum
acceptable word count is at most the inflated AI-facing target
(the original target times the fixed multiplier 1.25) and at most the
original target word count. -/
theorem C1_min_acceptable_le_targets (section_length : List Char) :
    (sectionTargets section_length).min_acceptable ≤
      (sectionTargets section_length).ai_target ∧
    (sectionTargets section_length).min_acceptable ≤
      (sectionTargets section_length).real_target := by
  unfold sectionTargets
  split_ifs <;> exact ⟨by norm_num, by norm_num⟩

/-- C2: with the medium section length (target 300 words) the drafter
computes an AI-facing target of 375 and a minimum acceptable count of
240; a generated section of 260 words is reported as passing and one of
200 words as under target, and in both cases the section is appended to
the article. -/
theorem C2_medium_scenario :
    (sectionTargets (("średnia (250-350 słów)").data)).ai_target = 375 ∧
    (sectionTargets (("średnia (250-350 słów)").data)).min_acceptable = 240 ∧
    (sectionTargets (("średnia (250-350 słów)").data)).display_target = 300 ∧
    (draftStep (sectionTargets (("średnia (250-350 słów)").data))
      (("Tytuł").data)
      { full_article := ("<h3>Start</h3>\n\n").data, total_words := 7 }
      (nWords 260)).section_word_count = 260 ∧
    (draftStep (sectionTargets (("średnia (250-350 słów)").data))
      (("Tytuł").data)
      { full_article := ("<h3>Start</h3>\n\n").data, total_words := 7 }
      (nWords 260)).passedMin = true ∧
    (draftStep (sectionTargets (("średnia (250-350 słów)").data))
      (("Tytuł").data)
      { full_article := ("<h3>Start</h3>\n\n").data, total_words := 7 }
      (nWords 260)).state.full_article =
      ("<h3>Start</h3>\n\n").data ++ ("<h3>Tytuł</h3>\n\n").data ++
        nWords 260 ++ ("\n\n").data ∧
    (draftStep (sectionTargets (("średnia (250-350 słów)").data))
      (("Tytuł").data)
      { full_article := ("<h3>Start</h3>\n\n").data, total_words := 7 }
      (nWords 200)).section_word_count = 200 ∧
    (draftStep (sectionTargets (("średnia (250-350 słów)").data))
      (("Tytuł").data)
      { full_article := ("<h3>Start</h3>\n\n").data, total_words := 7 }
      (nWords 200)).passedMin = false ∧
    (draftStep (sectionTargets (("średnia (250-350 słów)").data))
      (("Tytuł").data)
      { full_article := ("<h3>Start</h3>\n\n").data, total_words := 7 }
      (nWords 200)).state.full_article =
      ("<h3>Start</h3>\n\n").data ++ ("<h3>Tytuł</h3>\n\n").data ++
        nWords 200 ++ ("\n\n").data := by
  set_option maxRecDepth 40000 in decide

/-- C3, counterexample: for a generated section that re-emits its
heading, the reported word count is computed before the heading is
stripped, so the three heading words still count: the code reports 6
words where stripping the heading first would give 3. -/
theorem C3_counterexample :
    (draftStep (sectionTargets (("średnia (250-350 słów)").data))
      (("Sekcja").data) { full_article := [], total_words := 0 }
      (("<h3>Extra Heading Words</h3>\n<p>body text here</p>").data)).section_word_count
      = 6 ∧
    countWords (stripTags (removeH3
      (("<h3>Extra Heading Words</h3>\n<p>body text here</p>").data))) = 3 ∧
    (draftStep (sectionTargets (("średnia (250-350 słów)").data))
      (("Sekcja").data) { full_article := [], total_words := 0 }
      (("<h3>Extra Heading Words</h3>\n<p>body text here</p>").data)).section_word_count
      ≠ countWords (stripTags (removeH3
        (("<h3>Extra Heading Words</h3>\n<p>body text here</p>").data))) := by
  decide

/-- C3, amended: for every generated section the drafter computes the
produced word count on the raw generated content, by removing markup
tags and counting whitespace-delimited tokens, and only afterwards
strips the model re-emitted heading before appending the canonical
heading and the cleaned body; so words inside a re-emitted heading do
contribute to the reported count. -/
theorem C3_count_raw_then_strip_heading (t : SectionTargets)
    (title : List Char) (st : DraftState) (raw : List Char) :
    (draftStep t title st raw).section_word_count =
      countWords (stripTags raw) ∧
    (draftStep t title st raw).state.full_article =
      st.full_article ++ ("<h3>").data ++ title ++ ("</h3>\n\n").data ++
        removeH3 raw ++ ("\n\n").data ∧
    (draftStep t title st raw).state.total_words =
      st.total_words + countWords (stripTags raw) := by
  refine ⟨rfl, ?_, rfl⟩
  simp [draftStep, List.append_assoc]

/-- C4: the bibliography block is appended exactly when the setting is
on and the cached citation list of the topic is non-empty; every
citation that starts with http is rendered as a hyperlink to the
citation with everything from the first question mark on removed, every
other citation as plain text; in particular the example URL with a
query string renders as a link to its query-free form. -/
theorem C4_bibliography_rendering :
    (clean_url (("https://example.com/article?utm=1").data) =
      ("https://example.com/article").data) ∧
    (renderCitation (("https://example.com/article?utm=1").data) =
      ("    <li><a href=\"https://example.com/article\" target=\"_blank\">https://example.com/article</a></li>\n").data) ∧
    (∀ c : List Char, (("http").data).isPrefixOf c = true →
      renderCitation c =
        ("    <li><a href=\"").data ++ clean_url c ++
          ("\" target=\"_blank\">").data ++ clean_url c ++
          ("</a></li>\n").data) ∧
    (∀ c : List Char, (("http").data).isPrefixOf c = false →
      renderCitation c = ("    <li>").data ++ c ++ ("</li>\n").data) ∧
    (∀ (cache : ResearchCache) (topicId : Nat) (article : List Char),
      appendBibliography false cache topicId article = article) ∧
    (∀ (add : Bool) (cache : ResearchCache) (topicId : Nat)
      (article : List Char), citationsFor cache topicId = [] →
      appendBibliography add cache topicId article = article) ∧
    (∀ (cache : ResearchCache) (topicId : Nat) (article : List Char),
      citationsFor cache topicId ≠ [] →
      appendBibliography true cache topicId article =
        article ++ ("\n<h3>Bibliografia</h3>\n<ol>\n").data ++
          renderCitations (citationsFor cache topicId) ++
          ("</ol>\n").data) := by
  refine ⟨by decide, by decide, ?_, ?_, ?_, ?_, ?_⟩
  · intro c h
    simp [renderCitation, h]
  · intro c h
    simp [renderCitation, h]
  · intro cache topicId article
    simp [appendBibliography]
  · intro add cache topicId article h
    simp [appendBibliography, h]
  · intro cache topicId article h
    simp [appendBibliography, h, List.append_assoc]

/-- C4, witness: the branches of the bibliography theorem at concrete
inputs. -/
theorem C4_bibliography_rendering_witness :
    renderCitation (("Smith 2020").data) =
      ("    <li>").data ++ ("Smith 2020").data ++ ("</li>\n").data ∧
    appendBibliography true [] 1 (("art").data) = ("art").data ∧
    appendBibliography true
      [(1, { content := [],
             citations := [("https://example.com/article?utm=1").data] })] 1
      (("art").data) =
      ("art").data ++ ("\n<h3>Bibliografia</h3>\n<ol>\n").data ++
        renderCitations (citationsFor
          [(1, { content := [],
                 citations := [("https://example.com/article?utm=1").data] })] 1) ++
        ("</ol>\n").data := by
  refine ⟨C4_bibliography_rendering.2.2.2.1 _ (by decide),
    C4_bibliography_rendering.2.2.2.2.2.1 true [] 1 _ (by decide),
    C4_bibliography_rendering.2.2.2.2.2.2 _ 1 _ (by decide)⟩

/- ============ claim theorems (error handling, research) ============ -/

/-- C5: for every response body that cannot be parsed into the expected
structure - whether the body is not JSON at all or parses to a value of
the wrong shape - the affected stage reports an error and returns an
empty result without retrying: the topic proposer returns the empty
topic list and the outline synthesizer a null outline, each after
exactly one generation call. -/
theorem C5_shape_failure_empty_result (body : List Char)
    (num_sections : Nat) :
    (parsedTopicsVal body = none →
      generate_topics body =
        { topics := Json.arr JsonList.nil, calls := 1, errorShown := true }) ∧
    (outlineShapeOk body num_sections = false →
      (generate_article_outline body num_sections).outline = none ∧
      (generate_article_outline body num_sections).calls = 1 ∧
      (generate_article_outline body num_sections).errorShown = true) := by
  constructor
  · intro h
    unfold generate_topics
    rw [h]
  · intro h
    unfold generate_article_outline
    unfold outlineShapeOk at h
    cases hl : loads body with
    | none => exact ⟨rfl, rfl, rfl⟩
    | some j =>
      rw [hl] at h
      dsimp only at h ⊢
      cases hs : outlineShapeResult j num_sections with
      | mk w1 res =>
        cases res with
        | none =>
          exact ⟨rfl, rfl, rfl⟩
        | some k =>
          rw [hs] at h
          simp at h

/-- C5, witness: an unparseable body, a parseable body of the wrong
shape for the topic proposer (an object without the topics key), and
one of the wrong shape for the outline synthesizer (a list, on which
the attribute access raises). -/
theorem C5_shape_failure_empty_result_witness :
    generate_topics (("not-json").data) =
      { topics := Json.arr JsonList.nil, calls := 1, errorShown := true } ∧
    generate_topics (("\x7b\x7d").data) =
      { topics := Json.arr JsonList.nil, calls := 1, errorShown := true } ∧
    (generate_article_outline (("not-json").data) 7).outline = none ∧
    (generate_article_outline (("[]").data) 7).outline = none ∧
    (generate_article_outline (("[]").data) 7).calls = 1 ∧
    (generate_article_outline (("[]").data) 7).errorShown = true := by
  refine ⟨(C5_shape_failure_empty_result (("not-json").data) 7).1 (by decide),
    (C5_shape_failure_empty_result (("\x7b\x7d").data) 7).1 (by decide),
    ((C5_shape_failure_empty_result (("not-json").data) 7).2 (by decide)).1,
    ((C5_shape_failure_empty_result (("[]").data) 7).2 (by decide)).1,
    ((C5_shape_failure_empty_result (("[]").data) 7).2 (by decide)).2.1,
    ((C5_shape_failure_empty_result (("[]").data) 7).2 (by decide)).2.2⟩

/-- C6: a failure raised inside the research stage is not propagated:
the stage shows the error and the diagnostic-guidance warning and
returns empty content, leaving the cache as it was, after its single
service call. -/
theorem C6_research_failure_nonfatal (topicId : Nat)
    (cache : ResearchCache) :
    perform_web_research true topicId SvcOutcome.exn cache =
      { content := [], cache := cache, calls := 1,
        errorShown := true, warningShown := true } := rfl

/-- C7: the continuity context included in the prompt is a suffix of
the accumulated article bounded by 4000 characters: the whole article
when it has at most 4000 characters and exactly its last 4000 characters
otherwise. -/
theorem C7_previous_context_window (a : List Char) :
    previous_context a <:+ a ∧
    (previous_context a).length ≤ 4000 ∧
    (a.length ≤ 4000 → previous_context a = a) ∧
    (4000 < a.length →
      previous_context a = a.drop (a.length - 4000) ∧
      (previous_context a).length = 4000) := by
  unfold previous_context
  by_cases h : a.length > 4000
  · rw [if_pos h]
    refine ⟨List.drop_suffix _ _, ?_, ?_, ?_⟩
    · rw [List.length_drop]; omega
    · intro h2; omega
    · intro _; exact ⟨rfl, by rw [List.length_drop]; omega⟩
  · rw [if_neg h]
    exact ⟨List.suffix_refl a, by omega, fun _ => rfl, fun h2 => absurd h2 h⟩

/-- C7, witness: the short-article and long-article branches at
concrete inputs. -/
theorem C7_previous_context_window_witness :
    previous_context (("abc").data) = ("abc").data ∧
    previous_context (List.replicate 4001 'x') =
      (List.replicate 4001 'x').drop ((List.replicate 4001 'x').length - 4000) := by
  constructor
  · exact (C7_previous_context_window (("abc").data)).2.2.1 (by decide)
  · exact ((C7_previous_context_window (List.replicate 4001 'x')).2.2.2
      (by rw [List.length_replicate]; omega)).1

/-- C9: the research stage writes the cache only on success: an
invocation that ends in the error branch leaves the cache map exactly as
it was, so a previously cached result of the same topic survives. -/
theorem C9_research_error_preserves_cache (topicId : Nat)
    (cache : ResearchCache) :
    (perform_web_research true topicId SvcOutcome.exn cache).cache = cache ∧
    (∀ e : ResearchEntry, lookupCache cache topicId = some e →
      lookupCache (perform_web_research true topicId SvcOutcome.exn cache).cache
        topicId = some e) := by
  exact ⟨rfl, fun e he => he⟩

/-- C9, witness: a cached entry survives a failing research call. -/
theorem C9_research_error_preserves_cache_witness :
    (perform_web_research true 3 SvcOutcome.exn
      [(3, { content := ("stare dane").data, citations := [] })]).cache =
      [(3, { content := ("stare dane").data, citations := [] })] ∧
    lookupCache (perform_web_research true 3 SvcOutcome.exn
      [(3, { content := ("stare dane").data, citations := [] })]).cache 3 =
      some { content := ("stare dane").data, citations := [] } := by
  refine ⟨(C9_research_error_preserves_cache 3 _).1, ?_⟩
  exact (C9_research_error_preserves_cache 3 _).2 _ (by decide)

/-- C10: with the do_research setting off the research stage returns the
empty string at once, issues no generation request and leaves the
research cache untouched. -/
theorem C10_research_disabled_noop (topicId : Nat) (svc : SvcOutcome)
    (cache : ResearchCache) :
    perform_web_research false topicId svc cache =
      { content := [], cache := cache, calls := 0,
        errorShown := false, warningShown := false } := rfl

/- ============ settings round trip: string lemmas ============ -/

theorem hexVal_hexChar (m : Nat) (h : m < 16) : hexVal (hexChar m) = some m := by
  interval_cases m <;> decide

theorem escChars_length (s : List Char) : s.length ≤ (escChars s).length := by
  induction s with
  | nil => simp [escChars]
  | cons c s ih =>
    rw [show escChars (c :: s) = escapeChar c ++ escChars s from rfl]
    rw [List.length_append, List.length_cons]
    have : 1 ≤ (escapeChar c).length := by
      unfold escapeChar
      split_ifs <;> simp
    omega

theorem parseStrAux_escChars (s : List Char) : ∀ (fuel : Nat) (rest : List Char),
    s.length + 1 ≤ fuel →
    parseStrAux fuel (escChars s ++ ('\"' :: rest)) = some (s, rest) := by
  induction s with
  | nil =>
    intro fuel rest hf
    obtain ⟨f, rfl⟩ : ∃ f, fuel = f + 1 := ⟨fuel - 1, by omega⟩
    rfl
  | cons c s ih =>
    intro fuel rest hf
    obtain ⟨f, rfl⟩ : ∃ f, fuel = f + 1 := ⟨fuel - 1, by omega⟩
    have hfs : s.length + 1 ≤ f := by
      rw [List.length_cons] at hf; omega
    rw [show escChars (c :: s) = escapeChar c ++ escChars s from rfl,
      List.append_assoc]
    unfold escapeChar
    split_ifs with h1 h2 h3 h4 h5 h6 h7 h8
    · subst h1
      rw [show parseStrAux (f+1) (['\\', '\"'] ++ (escChars s ++ ('\"' :: rest))) =
        (parseStrAux f (escChars s ++ ('\"' :: rest))).map
          (fun p => ('\"' :: p.1, p.2)) from rfl, ih f rest hfs]
      rfl
    · subst h2
      rw [show parseStrAux (f+1) (['\\', '\\'] ++ (escChars s ++ ('\"' :: rest))) =
        (parseStrAux f (escChars s ++ ('\"' :: rest))).map
          (fun p => ('\\' :: p.1, p.2)) from rfl, ih f rest hfs]
      rfl
    · subst h3
      rw [show parseStrAux (f+1) (['\\', 'b'] ++ (escChars s ++ ('\"' :: rest))) =
        (parseStrAux f (escChars s ++ ('\"' :: rest))).map
          (fun p => ('\x08' :: p.1, p.2)) from rfl, ih f rest hfs]
      rfl
    · subst h4
      rw [show parseStrAux (f+1) (['\\', 'f'] ++ (escChars s ++ ('\"' :: rest))) =
        (parseStrAux f (escChars s ++ ('\"' :: rest))).map
          (fun p => ('\x0c' :: p.1, p.2)) from rfl, ih f rest hfs]
      rfl
    · subst h5
      rw [show parseStrAux (f+1) (['\\', 'n'] ++ (escChars s ++ ('\"' :: rest))) =
        (parseStrAux f (escChars s ++ ('\"' :: rest))).map
          (fun p => ('\n' :: p.1, p.2)) from rfl, ih f rest hfs]
      rfl
    · subst h6
      rw [show parseStrAux (f+1) (['\\', 'r'] ++ (escChars s ++ ('\"' :: rest))) =
        (parseStrAux f (escChars s ++ ('\"' :: rest))).map
          (fun p => ('\r' :: p.1, p.2)) from rfl, ih f rest hfs]
      rfl
    · subst h7
      rw [show parseStrAux (f+1) (['\\', 't'] ++ (escChars s ++ ('\"' :: rest))) =
        (parseStrAux f (escChars s ++ ('\"' :: rest))).map
          (fun p => ('\t' :: p.1, p.2)) from rfl, ih f rest hfs]
      rfl
    · have hdiv : c.toNat / 16 < 16 := by omega
      have hmod : c.toNat % 16 < 16 := by omega
      simp only [List.cons_append, List.nil_append]
      rw [show parseStrAux (f+1)
        ('\\' :: 'u' :: '0' :: '0' :: hexChar (c.toNat / 16) :: hexChar (c.toNat % 16)
          :: (escChars s ++ ('\"' :: rest))) =
        (match hexVal '0', hexVal '0', hexVal (hexChar (c.toNat / 16)),
            hexVal (hexChar (c.toNat % 16)) with
          | some a, some b, some c2, some d =>
            let p := decodeUEscape (a * 4096 + b * 256 + c2 * 16 + d)
              (escChars s ++ ('\"' :: rest))
            (parseStrAux f p.2).map (fun q => (p.1 :: q.1, q.2))
          | _, _, _, _ => none) from rfl]
      rw [hexVal_hexChar _ hdiv, hexVal_hexChar _ hmod,
        show hexVal '0' = some 0 from rfl]
      dsimp only
      have hn : 0 * 4096 + 0 * 256 + c.toNat / 16 * 16 + c.toNat % 16 = c.toNat := by
        omega
      rw [hn]
      rw [show decodeUEscape c.toNat (escChars s ++ ('\"' :: rest)) =
        (Char.ofNat c.toNat, escChars s ++ ('\"' :: rest)) from by
        unfold decodeUEscape
        rw [if_pos (Or.inl (by omega))]]
      dsimp only
      rw [ih f rest hfs]
      simp [Char.ofNat_toNat]
    · simp only [List.cons_append, List.nil_append]
      rw [show parseStrAux (f+1) (c :: (escChars s ++ ('\"' :: rest))) =
        (if c = '\"' then some ([], escChars s ++ ('\"' :: rest))
         else if c = '\\' then
           (match escChars s ++ ('\"' :: rest) with
            | [] => none
            | e :: rest2 =>
              if e = 'u' then
                (match rest2 with
                 | h1 :: h2 :: h3 :: h4 :: rest3 =>
                   match hexVal h1, hexVal h2, hexVal h3, hexVal h4 with
                   | some a, some b, some c2, some d =>
                     let p := decodeUEscape (a * 4096 + b * 256 + c2 * 16 + d) rest3
                     (parseStrAux f p.2).map (fun q => (p.1 :: q.1, q.2))
                   | _, _, _, _ => none
                 | _ => none)
              else
                match escDecode e with
                | some c2 => (parseStrAux f rest2).map (fun p => (c2 :: p.1, p.2))
                | none => none)
         else if c.toNat < 32 then none
         else (parseStrAux f (escChars s ++ ('\"' :: rest))).map
           (fun p => (c :: p.1, p.2))) from rfl]
      rw [if_neg h1, if_neg h2, if_neg h8, ih f rest hfs]
      rfl

theorem parseStr_escChars (s rest : List Char) :
    parseStr (escChars s ++ ('\"' :: rest)) = some (s, rest) := by
  unfold parseStr
  apply parseStrAux_escChars
  rw [List.length_append, List.length_cons]
  have := escChars_length s
  omega
/- ============ settings round trip: number and structure lemmas ============ -/

theorem digitVal_digitChar (d : Fin 10) : digitVal (digitChar d) = some d := by
  fin_cases d <;> decide
theorem digitVal_none (c : Char) (h : isDigitCh c = false) : digitVal c = none := by
  unfold digitVal
  rw [dif_neg]
  intro hc
  simp only [isDigitCh, Bool.and_eq_false_iff, decide_eq_false_iff_not] at h
  rcases h with h | h <;> omega
theorem headNotDigit_of_numBoundary (rest : List Char)
    (hb : numBoundary rest = true) : headNotDigit rest = true := by
  cases rest with
  | nil => rfl
  | cons c cs =>
    simp only [numBoundary, Bool.not_eq_true'] at hb
    simp only [Bool.or_eq_false_iff] at hb
    simp [headNotDigit, hb.1]
theorem takeDigits_ser (ds : List (Fin 10)) (rest : List Char)
    (h : headNotDigit rest = true) :
    takeDigits (digitsChars ds ++ rest) = (ds, rest) := by
  induction ds with
  | nil =>
    simp only [digitsChars, List.map_nil, List.nil_append]
    cases rest with
    | nil => rfl
    | cons c t =>
      have hd : digitVal c = none := digitVal_none c (by
        simpa [headNotDigit, Bool.not_eq_true'] using h)
      simp [takeDigits, hd]
  | cons d ds ih =>
    simp only [digitsChars, List.map_cons, List.cons_append]
    simp only [takeDigits, digitVal_digitChar]
    rw [show digitsChars ds = List.map digitChar ds from rfl] at ih
    simp [ih]
theorem parseExp_ser (eneg : Bool) (ds : List (Fin 10)) (rest : List Char)
    (hds : ds ≠ []) (hrest : headNotDigit rest = true) :
    parseExp ('e' :: (if eneg then '-' else '+') :: (digitsChars ds ++ rest)) =
      (some (eneg, ds), rest) := by
  cases eneg
  · show parseExp ('e' :: '+' :: (digitsChars ds ++ rest)) = _
    simp only [parseExp]
    rw [if_pos (by decide), if_neg (by decide), if_pos (by decide)]
    rw [takeDigits_ser ds rest hrest]
    cases ds with
    | nil => exact absurd rfl hds
    | cons d t => rfl
  · show parseExp ('e' :: '-' :: (digitsChars ds ++ rest)) = _
    simp only [parseExp]
    rw [if_pos (by decide), if_pos (by decide)]
    rw [takeDigits_ser ds rest hrest]
    cases ds with
    | nil => exact absurd rfl hds
    | cons d t => rfl
theorem parseIntPart_ser (ip : List (Fin 10)) (rest : List Char)
    (hwf : wfIntPart ip = true) (hrest : headNotDigit rest = true) :
    parseIntPart (digitsChars ip ++ rest) = some (ip, rest) := by
  cases ip with
  | nil => simp [wfIntPart] at hwf
  | cons d ds =>
    by_cases hd : d.val = 0
    · have hds : ds = [] := by
        simp only [wfIntPart] at hwf
        rw [if_pos hd] at hwf
        simpa using hwf
      subst hds
      have hd0 : d = (0 : Fin 10) := Fin.ext (by simpa using hd)
      subst hd0
      simp only [digitsChars, List.map_cons, List.map_nil, List.nil_append,
        List.cons_append]
      simp [parseIntPart, digitVal_digitChar]
    · simp only [digitsChars, List.map_cons, List.cons_append]
      simp only [parseIntPart, digitVal_digitChar, hd, if_false]
      rw [show List.map digitChar ds = digitsChars ds from rfl,
        takeDigits_ser ds rest hrest]
theorem parseFrac_cons_ne (c : Char) (cs : List Char) (h : c ≠ '.') :
    parseFrac (c :: cs) = (none, c :: cs) := by
  simp [parseFrac, h]
theorem parseFrac_ser (f : List (Fin 10)) (rest : List Char) (hf : f ≠ [])
    (hrest : headNotDigit rest = true) :
    parseFrac ('.' :: (digitsChars f ++ rest)) = (some f, rest) := by
  simp only [parseFrac]
  rw [if_pos trivial, takeDigits_ser f rest hrest]
  cases f with
  | nil => exact absurd rfl hf
  | cons d ds => rfl
theorem parseExp_cons_ne (c : Char) (cs : List Char) (h1 : c ≠ 'e')
    (h2 : c ≠ 'E') : parseExp (c :: cs) = (none, c :: cs) := by
  simp [parseExp, h1, h2]
theorem numBoundary_not_dot_e (c : Char) (cs : List Char)
    (hb : numBoundary (c :: cs) = true) : c ≠ '.' ∧ c ≠ 'e' ∧ c ≠ 'E' := by
  simp only [numBoundary, Bool.not_eq_true'] at hb
  simp only [Bool.or_eq_false_iff, decide_eq_false_iff_not] at hb
  exact ⟨hb.1.1.2, hb.1.2, hb.2⟩
theorem parseFrac_boundary (rest : List Char) (hb : numBoundary rest = true) :
    parseFrac rest = (none, rest) := by
  cases rest with
  | nil => rfl
  | cons c cs => exact parseFrac_cons_ne c cs (numBoundary_not_dot_e c cs hb).1
theorem parseExp_boundary (rest : List Char) (hb : numBoundary rest = true) :
    parseExp rest = (none, rest) := by
  cases rest with
  | nil => rfl
  | cons c cs =>
    exact parseExp_cons_ne c cs (numBoundary_not_dot_e c cs hb).2.1
      (numBoundary_not_dot_e c cs hb).2.2
theorem parseNumCore_ser (ip : List (Fin 10)) (fp : Option (List (Fin 10)))
    (ex : Option (Bool × List (Fin 10))) (rest : List Char)
    (hip : wfIntPart ip = true)
    (hfp : ∀ f, fp = some f → f ≠ [])
    (hex : ∀ p, ex = some p → p.2 ≠ [])
    (hb : numBoundary rest = true) :
    parseNumCore (digitsChars ip ++ (fracSer fp ++ (expSer ex ++ rest))) =
      some ((ip, fp, ex), rest) := by
  have hbd := headNotDigit_of_numBoundary rest hb
  rcases fp with _ | f <;> rcases ex with _ | ⟨eneg, eds⟩
  · simp only [fracSer, expSer, List.nil_append]
    unfold parseNumCore
    rw [parseIntPart_ser ip rest hip hbd]
    dsimp only
    rw [parseFrac_boundary rest hb]
    dsimp only
    rw [parseExp_boundary rest hb]
  · simp only [fracSer, expSer, List.nil_append, List.cons_append]
    unfold parseNumCore
    rw [parseIntPart_ser ip _ hip (by rfl)]
    dsimp only
    rw [parseFrac_cons_ne 'e' _ (by decide)]
    dsimp only
    rw [parseExp_ser eneg eds rest (hex (eneg, eds) rfl) hbd]
  · simp only [fracSer, expSer, List.nil_append, List.cons_append]
    unfold parseNumCore
    rw [parseIntPart_ser ip _ hip (by rfl)]
    dsimp only
    rw [parseFrac_ser f rest (hfp f rfl) hbd]
    dsimp only
    rw [parseExp_boundary rest hb]
  · simp only [fracSer, expSer, List.cons_append, List.append_assoc]
    unfold parseNumCore
    rw [parseIntPart_ser ip _ hip (by rfl)]
    dsimp only
    rw [parseFrac_ser f _ (hfp f rfl) (by rfl)]
    dsimp only
    rw [parseExp_ser eneg eds rest (hex (eneg, eds) rfl) hbd]
theorem digitChar_toNat (d : Fin 10) :
    48 ≤ (digitChar d).toNat ∧ (digitChar d).toNat ≤ 57 := by
  fin_cases d <;> decide
theorem parseNum_ser (neg : Bool) (ip : List (Fin 10))
    (fp : Option (List (Fin 10))) (ex : Option (Bool × List (Fin 10)))
    (rest : List Char) (hip : wfIntPart ip = true)
    (hfp : ∀ f, fp = some f → f ≠ [])
    (hex : ∀ p, ex = some p → p.2 ≠ [])
    (hb : numBoundary rest = true) :
    parseNum (serNum neg ip fp ex ++ rest) =
      some (Json.num neg ip fp ex, rest) := by
  cases neg
  · have hsh : serNum false ip fp ex ++ rest =
        digitsChars ip ++ (fracSer fp ++ (expSer ex ++ rest)) := by
      simp [serNum, List.append_assoc]
    rw [hsh]
    cases ip with
    | nil => simp [wfIntPart] at hip
    | cons d ds =>
      have hdi := digitChar_toNat d
      simp only [digitsChars, List.map_cons, List.cons_append]
      simp only [parseNum]
      rw [if_neg (show ¬ (digitChar d = '-') from fun hc => by
        rw [hc] at hdi; exact absurd hdi (by decide))]
      have := parseNumCore_ser (d :: ds) fp ex rest hip hfp hex hb
      simp only [digitsChars, List.map_cons, List.cons_append] at this
      rw [this]
      rfl
  · have hsh : serNum true ip fp ex ++ rest =
        '-' :: (digitsChars ip ++ (fracSer fp ++ (expSer ex ++ rest))) := by
      simp [serNum, List.append_assoc]
    rw [hsh]
    simp only [parseNum]
    rw [if_pos trivial, parseNumCore_ser ip fp ex rest hip hfp hex hb]
    rfl
theorem skipWs_cons_false {c : Char} (l : List Char) (h : isJsonWs c = false) :
    skipWs (c :: l) = c :: l := by
  simp [skipWs, List.dropWhile, h]
theorem skipWs_append_allWs (ws l : List Char) (h : ws.all isJsonWs = true) :
    skipWs (ws ++ l) = skipWs l := by
  induction ws with
  | nil => rfl
  | cons c t ih =>
    simp only [List.all_cons, Bool.and_eq_true] at h
    simp only [List.cons_append, skipWs, List.dropWhile, h.1]
    exact ih h.2
theorem replicate_space_allWs (n : Nat) :
    (List.replicate n ' ').all isJsonWs = true := by
  induction n with
  | zero => rfl
  | succ n ih => simp [List.replicate_succ, List.all_cons, ih, isJsonWs]
theorem indentChars_allWs (n : Nat) : (indentChars n).all isJsonWs = true :=
  replicate_space_allWs (2 * n)
theorem isJsonWs_eq_false_of_range {c : Char} (h1 : 45 ≤ c.toNat)
    (_h2 : c.toNat ≤ 57) : isJsonWs c = false := by
  simp only [isJsonWs, Bool.or_eq_false_iff, decide_eq_false_iff_not]
  constructor
  constructor
  constructor
  all_goals intro hc
  all_goals rw [hc] at h1
  all_goals exact absurd h1 (by decide)
theorem parseValue_to_parseNum (fuel : Nat) (c : Char) (t : List Char)
    (r : Json × List Char) (h1 : 45 ≤ c.toNat) (h2 : c.toNat ≤ 57)
    (hp : parseNum (c :: t) = some r) :
    parseValue (fuel + 1) (c :: t) = some r := by
  have ne : ∀ x : Char, x.toNat < 45 ∨ 57 < x.toNat → ¬ (c = x) := by
    intro x hx hc
    subst hc
    rcases hx with hx | hx <;> omega
  simp only [parseValue]
  rw [skipWs_cons_false t (isJsonWs_eq_false_of_range h1 h2)]
  dsimp only
  rw [if_neg (ne lbrace (Or.inr (by decide))),
    if_neg (ne '[' (Or.inr (by decide))),
    if_neg (ne '\"' (Or.inl (by decide))),
    if_neg (ne 't' (Or.inr (by decide))),
    if_neg (ne 'f' (Or.inr (by decide))),
    if_neg (ne 'n' (Or.inr (by decide)))]
  rw [hp]
theorem fuelJ_pos (v : Json) : 1 ≤ fuelJ v := by
  cases v with
  | arr l => cases l <;> simp [fuelJ]
  | obj o => cases o <;> simp [fuelJ]
  | _ => simp [fuelJ]
theorem fuelL_pos (l : JsonList) : 1 ≤ fuelL l := by
  cases l <;> simp [fuelL]
theorem fuelO_pos (o : JsonObj) : 1 ≤ fuelO o := by
  cases o <;> simp [fuelO]
theorem wfJ_num_parts (neg : Bool) (ip : List (Fin 10))
    (fp : Option (List (Fin 10))) (ex : Option (Bool × List (Fin 10)))
    (h : wfJ (Json.num neg ip fp ex) = true) :
    wfIntPart ip = true ∧ (∀ f, fp = some f → f ≠ []) ∧
      (∀ p, ex = some p → p.2 ≠ []) := by
  simp only [wfJ, Bool.and_eq_true] at h
  refine ⟨h.1.1, ?_, ?_⟩
  · intro f hf
    rw [hf] at h
    have := h.1.2
    simpa using this
  · rintro ⟨eneg, ds⟩ hp
    rw [hp] at h
    have := h.2
    simpa using this
theorem serJson_head (v : Json) (lvl : Nat) (hwf : wfJ v = true) :
    ∃ c cs, serJson v lvl = c :: cs ∧ isJsonWs c = false ∧ c ≠ ']' := by
  cases v with
  | nan => simp [wfJ] at hwf
  | infinity b => simp [wfJ] at hwf
  | null => exact ⟨'n', _, rfl, by decide, by decide⟩
  | bool b =>
    cases b
    · exact ⟨'f', _, rfl, by decide, by decide⟩
    · exact ⟨'t', _, rfl, by decide, by decide⟩
  | str s => exact ⟨'\"', _, rfl, by decide, by decide⟩
  | num neg ip fp ex =>
    have hip : wfIntPart ip = true := (wfJ_num_parts neg ip fp ex hwf).1
    cases neg
    · cases ip with
      | nil => simp [wfIntPart] at hip
      | cons d ds =>
        refine ⟨digitChar d, (List.map digitChar ds ++ fracSer fp) ++ expSer ex,
          ?_, ?_, ?_⟩
        · show serNum false (d :: ds) fp ex = _
          simp [serNum, digitsChars]
        · exact isJsonWs_eq_false_of_range
            (by have := (digitChar_toNat d).1; omega) (digitChar_toNat d).2
        · have hr := digitChar_toNat d
          intro hc
          rw [hc] at hr
          exact absurd hr (by decide)
    · refine ⟨'-', (digitsChars ip ++ fracSer fp) ++ expSer ex, ?_, by decide,
        by decide⟩
      show serNum true ip fp ex = _
      simp [serNum]
  | arr l =>
    cases l
    · exact ⟨'[', _, rfl, by decide, by decide⟩
    · exact ⟨'[', _, rfl, by decide, by decide⟩
  | obj o =>
    cases o
    · exact ⟨lbrace, _, rfl, by decide, by decide⟩
    · exact ⟨lbrace, _, rfl, by decide, by decide⟩
theorem serListItems_eq (v : Json) (t : JsonList) (lvl : Nat) :
    serListItems (JsonList.cons v t) lvl =
      '\n' :: (indentChars lvl ++ (serJson v lvl ++ itemsSer t lvl)) := by
  cases t
  · simp [serListItems, itemsSer]
  · simp [serListItems, itemsSer, List.append_assoc]
theorem serObjItems_eq (k : List Char) (v : Json) (t : JsonObj) (lvl : Nat) :
    serObjItems (JsonObj.cons k v t) lvl =
      '\n' :: (indentChars lvl ++ (serStr k ++ (':' :: ' ' ::
        (serJson v lvl ++ membersSer t lvl)))) := by
  cases t
  · simp [serObjItems, membersSer]
  · simp [serObjItems, membersSer, List.append_assoc]
mutual
theorem fuelJ_le (v : Json) (lvl : Nat) :
    fuelJ v ≤ (serJson v lvl).length + 1 := by
  cases v with
  | null => simp [fuelJ, serJson]
  | bool b => cases b <;> simp [fuelJ, serJson]
  | num neg ip fp ex => simp only [fuelJ]; omega
  | nan => simp [fuelJ, serJson]
  | infinity b => cases b <;> simp [fuelJ, serJson]
  | str s => simp only [fuelJ]; omega
  | arr l =>
    cases l with
    | nil => simp [fuelJ, serJson]
    | cons v t =>
      have h := fuelL_le (JsonList.cons v t) (lvl + 1)
      simp only [fuelJ, serJson, List.length_cons, List.length_append] at h ⊢
      omega
  | obj o =>
    cases o with
    | nil => simp [fuelJ, serJson]
    | cons k v t =>
      have h := fuelO_le (JsonObj.cons k v t) (lvl + 1)
      simp only [fuelJ, serJson, List.length_cons, List.length_append] at h ⊢
      omega
theorem fuelL_le (l : JsonList) (lvl : Nat) :
    fuelL l ≤ (serListItems l lvl).length + 1 := by
  cases l with
  | nil => simp [fuelL, serListItems]
  | cons v t =>
    have hv := fuelJ_le v lvl
    cases t with
    | nil =>
      simp only [fuelL, serListItems, List.length_cons, List.length_append]
      omega
    | cons w u =>
      have ht := fuelL_le (JsonList.cons w u) lvl
      simp only [fuelL, serListItems, List.length_cons, List.length_append] at ht ⊢
      omega
theorem fuelO_le (o : JsonObj) (lvl : Nat) :
    fuelO o ≤ (serObjItems o lvl).length + 1 := by
  cases o with
  | nil => simp [fuelO, serObjItems]
  | cons k v t =>
    have hv := fuelJ_le v lvl
    cases t with
    | nil =>
      simp only [fuelO, serObjItems, List.length_cons, List.length_append]
      omega
    | cons k2 w u =>
      have ht := fuelO_le (JsonObj.cons k2 w u) lvl
      simp only [fuelO, serObjItems, List.length_cons, List.length_append] at ht ⊢
      omega
end
theorem parseValue_ws_elim (fuel : Nat) (ws l : List Char)
    (hws : ws.all isJsonWs = true) :
    parseValue (fuel + 1) (ws ++ l) = parseValue (fuel + 1) l := by
  simp only [parseValue]
  rw [skipWs_append_allWs ws l hws]
theorem parseValue_serStr (f : Nat) (s rest : List Char) :
    parseValue (f + 1) (serStr s ++ rest) = some (Json.str s, rest) := by
  rw [show serStr s ++ rest = '\"' :: (escChars s ++ ('\"' :: rest)) from by
    simp [serStr, List.append_assoc]]
  rw [show parseValue (f + 1) ('\"' :: (escChars s ++ ('\"' :: rest))) =
    (parseStr (escChars s ++ ('\"' :: rest))).map (fun p => (Json.str p.1, p.2))
    from rfl]
  rw [parseStr_escChars]
  rfl
theorem parseValue_serNum (f : Nat) (neg : Bool) (ip : List (Fin 10))
    (fp : Option (List (Fin 10))) (ex : Option (Bool × List (Fin 10)))
    (rest : List Char) (hwf : wfJ (Json.num neg ip fp ex) = true)
    (hb : numBoundary rest = true) :
    parseValue (f + 1) (serNum neg ip fp ex ++ rest) =
      some (Json.num neg ip fp ex, rest) := by
  obtain ⟨hip, hfp, hex⟩ := wfJ_num_parts neg ip fp ex hwf
  have hser := parseNum_ser neg ip fp ex rest hip hfp hex hb
  cases neg
  · cases ip with
    | nil => simp [wfIntPart] at hip
    | cons d ds =>
      simp only [serNum, digitsChars, List.map_cons, List.nil_append,
        List.cons_append, List.append_assoc] at hser ⊢
      exact parseValue_to_parseNum f (digitChar d) _ _
        (by have := (digitChar_toNat d).1; omega) (digitChar_toNat d).2 hser
  · simp only [serNum, List.cons_append, List.nil_append, if_pos,
      List.append_assoc] at hser ⊢
    exact parseValue_to_parseNum f '-' _ _ (by decide) (by decide) hser
theorem skipWs_cons_ws {c : Char} (l : List Char) (h : isJsonWs c = true) :
    skipWs (c :: l) = skipWs l := by
  simp [skipWs, List.dropWhile, h]

set_option maxHeartbeats 1600000 in
mutual
theorem parse_ser_json (v : Json) (lvl : Nat) (ws rest : List Char)
    (fuel : Nat) (hwf : wfJ v = true) (hfuel : fuelJ v ≤ fuel)
    (hws : ws.all isJsonWs = true) (hb : numBoundary rest = true) :
    parseValue fuel (ws ++ (serJson v lvl ++ rest)) = some (v, rest) := by
  obtain ⟨f, rfl⟩ : ∃ f, fuel = f + 1 :=
    ⟨fuel - 1, by have := fuelJ_pos v; omega⟩
  rw [parseValue_ws_elim f ws _ hws]
  cases v with
  | nan => simp [wfJ] at hwf
  | infinity b => simp [wfJ] at hwf
  | null => exact rfl
  | bool b => cases b <;> exact rfl
  | str s => exact parseValue_serStr f s rest
  | num neg ip fp ex => exact parseValue_serNum f neg ip fp ex rest hwf hb
  | arr l =>
    cases l with
    | nil => exact rfl
    | cons v t =>
      have hv : wfJ v = true := by
        simp only [wfJ, wfL, Bool.and_eq_true] at hwf
        exact hwf.1
      have ht : wfL t = true := by
        simp only [wfJ, wfL, Bool.and_eq_true] at hwf
        exact hwf.2
      have hfl : fuelL (JsonList.cons v t) ≤ f := by
        simp only [fuelJ] at hfuel
        omega
      rw [show serJson (Json.arr (JsonList.cons v t)) lvl ++ rest =
        '[' :: (serListItems (JsonList.cons v t) (lvl + 1) ++
          ('\n' :: (indentChars lvl ++ (']' :: rest)))) from by
        simp [serJson, List.append_assoc]]
      simp only [parseValue]
      rw [skipWs_cons_false _ (by decide)]
      dsimp only
      rw [if_neg (by decide), if_pos rfl]
      rw [serListItems_eq v t (lvl + 1)]
      simp only [List.cons_append, List.append_assoc]
      rw [skipWs_cons_ws _ (by decide),
        skipWs_append_allWs _ _ (indentChars_allWs (lvl + 1))]
      obtain ⟨c0, cs0, hser, hc0ws, hc0ne⟩ := serJson_head v (lvl + 1) hv
      rw [hser]
      rw [show c0 :: cs0 ++ (itemsSer t (lvl + 1) ++
          ('\n' :: (indentChars lvl ++ (']' :: rest)))) =
        c0 :: (cs0 ++ (itemsSer t (lvl + 1) ++
          ('\n' :: (indentChars lvl ++ (']' :: rest))))) from rfl]
      rw [skipWs_cons_false _ hc0ws]
      dsimp only
      rw [if_neg hc0ne]
      rw [show c0 :: (cs0 ++ (itemsSer t (lvl + 1) ++
          ('\n' :: (indentChars lvl ++ (']' :: rest))))) =
        (c0 :: cs0) ++ (itemsSer t (lvl + 1) ++
          ('\n' :: (indentChars lvl ++ (']' :: rest)))) from rfl, ← hser]
      have hitems := parse_ser_items v t (lvl + 1) lvl [] rest f hv ht hfl rfl
      simp only [List.nil_append] at hitems
      rw [hitems]
      rfl
  | obj o =>
    cases o with
    | nil => exact rfl
    | cons k v t =>
      have hv : wfJ v = true := by
        simp only [wfJ, wfO, Bool.and_eq_true] at hwf
        exact hwf.1.2
      have ht : wfO t = true := by
        simp only [wfJ, wfO, Bool.and_eq_true] at hwf
        exact hwf.2
      have hfo : fuelO (JsonObj.cons k v t) ≤ f := by
        simp only [fuelJ] at hfuel
        omega
      rw [show serJson (Json.obj (JsonObj.cons k v t)) lvl ++ rest =
        lbrace :: (serObjItems (JsonObj.cons k v t) (lvl + 1) ++
          ('\n' :: (indentChars lvl ++ (rbrace :: rest)))) from by
        simp [serJson, List.append_assoc]]
      simp only [parseValue]
      rw [skipWs_cons_false _ (by decide)]
      dsimp only
      rw [if_pos rfl]
      rw [serObjItems_eq k v t (lvl + 1)]
      simp only [List.cons_append, List.append_assoc]
      rw [skipWs_cons_ws _ (by decide),
        skipWs_append_allWs _ _ (indentChars_allWs (lvl + 1))]
      rw [show serStr k ++ (':' :: ' ' :: (serJson v (lvl + 1) ++
          (membersSer t (lvl + 1) ++
            ('\n' :: (indentChars lvl ++ (rbrace :: rest)))))) =
        '\"' :: (escChars k ++ ('\"' :: (':' :: ' ' :: (serJson v (lvl + 1) ++
          (membersSer t (lvl + 1) ++
            ('\n' :: (indentChars lvl ++ (rbrace :: rest)))))))) from by
        simp [serStr, List.append_assoc]]
      rw [skipWs_cons_false _ (by decide)]
      dsimp only
      rw [if_neg (by decide)]
      have hmem := parse_ser_members k v t (lvl + 1) lvl [] rest f hv ht hfo rfl
      simp only [List.nil_append] at hmem
      rw [show ('\"' :: (escChars k ++ ('\"' :: (':' :: ' ' ::
          (serJson v (lvl + 1) ++ (membersSer t (lvl + 1) ++
            ('\n' :: (indentChars lvl ++ (rbrace :: rest))))))))) =
        serStr k ++ (':' :: ' ' :: (serJson v (lvl + 1) ++
          (membersSer t (lvl + 1) ++
            ('\n' :: (indentChars lvl ++ (rbrace :: rest)))))) from by
        simp [serStr, List.append_assoc]]
      rw [hmem]
      rfl
termination_by sizeOf v

theorem parse_ser_items (v : Json) (t : JsonList) (lvl klvl : Nat)
    (ws rest : List Char) (fuel : Nat) (hv : wfJ v = true)
    (ht : wfL t = true) (hfuel : fuelL (JsonList.cons v t) ≤ fuel)
    (hws : ws.all isJsonWs = true) :
    parseItems fuel (ws ++ (serJson v lvl ++ (itemsSer t lvl ++
      ('\n' :: (indentChars klvl ++ (']' :: rest)))))) =
      some (JsonList.cons v t, rest) := by
  obtain ⟨f, rfl⟩ : ∃ f, fuel = f + 1 :=
    ⟨fuel - 1, by have := fuelL_pos (JsonList.cons v t); omega⟩
  have hfv : fuelJ v ≤ f := by
    simp only [fuelL] at hfuel
    omega
  simp only [parseItems]
  cases t with
  | nil =>
    simp only [itemsSer, List.nil_append]
    rw [parse_ser_json v lvl ws
      ('\n' :: (indentChars klvl ++ (']' :: rest))) f hv hfv hws rfl]
    dsimp only
    rw [skipWs_cons_ws _ (by decide),
      skipWs_append_allWs _ _ (indentChars_allWs klvl),
      skipWs_cons_false _ (by decide)]
    rfl
  | cons w u =>
    have hw : wfJ w = true := by
      simp only [wfL, Bool.and_eq_true] at ht
      exact ht.1
    have hu : wfL u = true := by
      simp only [wfL, Bool.and_eq_true] at ht
      exact ht.2
    have hfu : fuelL (JsonList.cons w u) ≤ f := by
      simp only [fuelL] at hfuel ⊢
      omega
    simp only [itemsSer, List.cons_append]
    rw [parse_ser_json v lvl ws
      (',' :: (serListItems (JsonList.cons w u) lvl ++
        ('\n' :: (indentChars klvl ++ (']' :: rest))))) f hv hfv hws rfl]
    dsimp only
    rw [skipWs_cons_false _ (by decide)]
    dsimp only
    rw [if_pos rfl]
    rw [serListItems_eq w u lvl]
    simp only [List.cons_append, List.append_assoc]
    have hrec := parse_ser_items w u lvl klvl ('\n' :: indentChars lvl) rest f
      hw hu hfu (by simp [List.all_cons, indentChars_allWs, isJsonWs])
    simp only [List.cons_append, List.append_assoc] at hrec
    rw [hrec]
    rfl
termination_by sizeOf v + sizeOf t

theorem parse_ser_members (k : List Char) (v : Json) (o : JsonObj)
    (lvl klvl : Nat) (ws rest : List Char) (fuel : Nat)
    (hv : wfJ v = true) (ho : wfO o = true)
    (hfuel : fuelO (JsonObj.cons k v o) ≤ fuel)
    (hws : ws.all isJsonWs = true) :
    parseMembers fuel (ws ++ (serStr k ++ (':' :: ' ' ::
      (serJson v lvl ++ (membersSer o lvl ++
        ('\n' :: (indentChars klvl ++ (rbrace :: rest)))))))) =
      some (JsonObj.cons k v o, rest) := by
  obtain ⟨f, rfl⟩ : ∃ f, fuel = f + 1 :=
    ⟨fuel - 1, by have := fuelO_pos (JsonObj.cons k v o); omega⟩
  have hfv : fuelJ v ≤ f := by
    simp only [fuelO] at hfuel
    omega
  simp only [parseMembers]
  rw [skipWs_append_allWs _ _ hws]
  rw [show serStr k ++ (':' :: ' ' :: (serJson v lvl ++ (membersSer o lvl ++
      ('\n' :: (indentChars klvl ++ (rbrace :: rest)))))) =
    '\"' :: (escChars k ++ ('\"' :: (':' :: ' ' :: (serJson v lvl ++
      (membersSer o lvl ++
        ('\n' :: (indentChars klvl ++ (rbrace :: rest)))))))) from by
    simp [serStr, List.append_assoc]]
  rw [skipWs_cons_false _ (by decide)]
  dsimp only
  rw [if_pos rfl]
  rw [parseStr_escChars]
  dsimp only
  rw [skipWs_cons_false _ (by decide)]
  dsimp only
  rw [if_pos rfl]
  cases o with
  | nil =>
    simp only [membersSer, List.nil_append]
    rw [show (' ' :: (serJson v lvl ++
        ('\n' :: (indentChars klvl ++ (rbrace :: rest))))) =
      [' '] ++ (serJson v lvl ++
        ('\n' :: (indentChars klvl ++ (rbrace :: rest)))) from rfl]
    rw [parse_ser_json v lvl [' ']
      ('\n' :: (indentChars klvl ++ (rbrace :: rest))) f hv hfv (by decide) rfl]
    dsimp only
    rw [skipWs_cons_ws _ (by decide),
      skipWs_append_allWs _ _ (indentChars_allWs klvl),
      skipWs_cons_false _ (by decide)]
    dsimp only
    rw [if_neg (by decide), if_pos rfl]
  | cons k2 v2 u =>
    have hv2 : wfJ v2 = true := by
      simp only [wfO, Bool.and_eq_true] at ho
      exact ho.1.2
    have hu : wfO u = true := by
      simp only [wfO, Bool.and_eq_true] at ho
      exact ho.2
    have hfu : fuelO (JsonObj.cons k2 v2 u) ≤ f := by
      simp only [fuelO] at hfuel ⊢
      omega
    simp only [membersSer, List.cons_append]
    rw [show (' ' :: (serJson v lvl ++ (',' ::
        (serObjItems (JsonObj.cons k2 v2 u) lvl ++
        ('\n' :: (indentChars klvl ++ (rbrace :: rest))))))) =
      [' '] ++ (serJson v lvl ++ (',' ::
        (serObjItems (JsonObj.cons k2 v2 u) lvl ++
        ('\n' :: (indentChars klvl ++ (rbrace :: rest)))))) from rfl]
    rw [parse_ser_json v lvl [' ']
      (',' :: (serObjItems (JsonObj.cons k2 v2 u) lvl ++
        ('\n' :: (indentChars klvl ++ (rbrace :: rest))))) f hv hfv
      (by decide) rfl]
    dsimp only
    rw [skipWs_cons_false _ (by decide)]
    dsimp only
    rw [if_pos rfl]
    rw [serObjItems_eq k2 v2 u lvl]
    simp only [List.cons_append, List.append_assoc]
    have hrec := parse_ser_members k2 v2 u lvl klvl ('\n' :: indentChars lvl)
      rest f hv2 hu hfu (by simp [List.all_cons, indentChars_allWs, isJsonWs])
    simp only [List.cons_append, List.append_assoc] at hrec
    rw [hrec]
    rfl
termination_by sizeOf v + sizeOf o
end
theorem loads_dumps (v : Json) (h : wfJ v = true) : loads (dumps v) = some v := by
  unfold loads dumps
  have hmain := parse_ser_json v 0 [] [] ((serJson v 0).length + 1) h
    (fuelJ_le v 0) rfl rfl
  simp only [List.nil_append, List.append_nil] at hmain
  rw [hmain]
  rfl

/-- C8: saving any well-formed Configuration record with save_settings
and loading it back with load_settings yields the very record, with no
warning. -/
theorem C8_settings_round_trip (s : Json) (fs : Option (List Char))
    (h : wfJ s = true) :
    load_settings (save_settings s fs) = (s, false) := by
  unfold save_settings load_settings
  dsimp only
  rw [loads_dumps s h]

/-- C8, witness: the built-in default settings record round-trips. -/
theorem C8_settings_round_trip_witness :
    wfJ default_settings = true ∧
    load_settings (save_settings default_settings none) =
      (default_settings, false) :=
  ⟨by decide, C8_settings_round_trip default_settings none (by decide)⟩
end Melchior
